import Mathlib

/-!
Shallow embedding of `khal/aux.py`: helper functions converting lists of
strings into date(time) values and calendar events.

Modelling conventions:

* A Python `datetime` is a civil instant `DT` with year, month, day, hour and
  minute fields (the grammars of this module produce minute resolution:
  `timefstr` and the wrapped matchers keep only `timetuple()[3:5]`).
  Comparison of instants is lexicographic, as for valid Python datetimes.
  Years are unbounded naturals; `datetime.MAXYEAR` overflow is not modelled.
* `datetime.strptime` / `time.strptime` / `pytz.timezone` are external
  (C library / database) calls; they are modelled as an environment `PEnv`
  of pure functions.  `none` stands for the exception the call raises on
  failure (`ValueError` for the strptime calls; `UnknownTimeZoneError` or
  `UnicodeDecodeError`, which the source handles identically, for the
  timezone lookup).
* Python exceptions are modelled with `Except PErr`; the shared mutable
  token list is threaded explicitly, and is also returned on the error path
  (Python leaves the mutated list behind when an exception escapes).
* The clock is modelled as a single `today` parameter fixed for the whole
  call (the source reads `datetime.today()` / `date.today()` at several
  points during one construction; they are identified here).
* `to_unicode` on the joined text is modelled as the identity (Lean strings
  are already unicode); the terminal-encoding argument is dropped.
* The `icalendar.Event` builder is external; the sequence of
  `event.add(name, value)` calls is modelled as an `Event` record.
  `generate_random_uid` is external randomness, modelled as a `uid`
  parameter.
-/

namespace Khal

/-- A civil instant: the `(year, month, day, hour, minute)` of a Python
`datetime` at the minute resolution used by this module. -/
structure DT where
  y : Nat
  m : Nat
  d : Nat
  h : Nat
  mi : Nat
deriving DecidableEq, Repr

/-- A pure calendar date, as produced by `datetime.date()`. -/
structure Date where
  y : Nat
  m : Nat
  d : Nat
deriving DecidableEq, Repr

/-- `datetime.date()`: the calendar date of an instant. -/
def DT.date (t : DT) : Date := ⟨t.y, t.m, t.d⟩

/-- Gregorian leap-year rule, as implemented by Python's `datetime`. -/
def isLeap (y : Nat) : Bool := y % 4 = 0 && (y % 100 ≠ 0 || y % 400 = 0)

/-- Length of a month in the proleptic Gregorian calendar. -/
def daysInMonth (y m : Nat) : Nat :=
  if m = 2 then (if isLeap y then 29 else 28)
  else if m = 4 ∨ m = 6 ∨ m = 9 ∨ m = 11 then 30
  else 31

/-- The date components are a real calendar date (what the `datetime`
constructor checks about year, month and day). -/
def DT.dateOk (t : DT) : Bool :=
  1 ≤ t.y && 1 ≤ t.m && t.m ≤ 12 && 1 ≤ t.d && t.d ≤ daysInMonth t.y t.m

/-- The time components are in range (what the `datetime` constructor checks
about hour and minute). -/
def DT.timeOk (t : DT) : Bool := t.h < 24 && t.mi < 60

/-- A value that the Python `datetime` constructor would accept. -/
def DT.valid (t : DT) : Bool := t.dateOk && t.timeOk

/-- Strict lexicographic order on instants (Python `datetime.__lt__` for
valid datetimes). -/
def dtLtP (a b : DT) : Prop :=
  a.y < b.y ∨ (a.y = b.y ∧ (a.m < b.m ∨ (a.m = b.m ∧ (a.d < b.d ∨ (a.d = b.d ∧
    (a.h < b.h ∨ (a.h = b.h ∧ a.mi < b.mi)))))))

instance (a b : DT) : Decidable (dtLtP a b) := by unfold dtLtP; infer_instance

/-- Boolean form of the instant order, used where the source branches on
`dtend < dtstart`. -/
def dtLt (a b : DT) : Bool := decide (dtLtP a b)

/-- Strict lexicographic order on pure dates (Python `date.__lt__`). -/
def dateLtP (a b : Date) : Prop :=
  a.y < b.y ∨ (a.y = b.y ∧ (a.m < b.m ∨ (a.m = b.m ∧ a.d < b.d)))

instance (a b : Date) : Decidable (dateLtP a b) := by unfold dateLtP; infer_instance

/-- Boolean form of the date order. -/
def dateLt (a b : Date) : Bool := decide (dateLtP a b)

/-- `t + timedelta(days=1)`: step one calendar day forward. -/
def DT.addDays1 (t : DT) : DT :=
  if t.d + 1 ≤ daysInMonth t.y t.m then { t with d := t.d + 1 }
  else if t.m + 1 ≤ 12 then { t with d := 1, m := t.m + 1 }
  else { y := t.y + 1, m := 1, d := 1, h := t.h, mi := t.mi }

/-- `t + timedelta(days=n)` for a natural number of days. -/
def DT.addDays (t : DT) : Nat → DT
  | 0 => t
  | n + 1 => (DT.addDays t n).addDays1

/-- `t + timedelta(minutes=n)`: minute arithmetic with day rollover. -/
def DT.addMinutes (t : DT) (n : Nat) : DT :=
  let total := t.h * 60 + t.mi + n
  let t2 := t.addDays (total / 1440)
  { t2 with h := total % 1440 / 60, mi := total % 60 }

/-- Exceptions that can escape the functions of this module.
`fatalError msg` stands for `logger.fatal(msg)` followed by `raise
FatalError()` (in the source the two always occur together, so a
`fatalError` result means exactly that the fatal-reporting capability was
invoked). -/
inductive PErr
  | valueError
  | indexError
  | fatalError (msg : String)
deriving DecidableEq, Repr

/-- The `datetime(year, month, day, hour, minute)` constructor: validates its
components, raising `ValueError` on an impossible date or time. -/
def mkDT (y m d h mi : Nat) : Except PErr DT :=
  if (DT.mk y m d h mi).valid then .ok ⟨y, m, d, h, mi⟩ else .error .valueError

/-- A timezone offset rule is opaque to this module; it is identified by the
name under which the lookup capability returned it. -/
abbrev Tz := String

/-- The external parsing and lookup capabilities used by `aux.py`:
`datetime.strptime`, `time.strptime` (restricted to the `timetuple()[3:5]`
hour/minute fields actually consumed) and `pytz.timezone`.  A `none` result
models the exception raised on failure. -/
structure PEnv where
  dt_strptime : String → String → Option DT
  t_strptime : String → String → Option (Nat × Nat)
  tz_lookup : String → Option Tz

/-- The five caller-supplied format strings, as bundled into the `locale`
dict inside `construct_event`. -/
structure Locale where
  timeformat : String
  dateformat : String
  longdateformat : String
  datetimeformat : String
  longdatetimeformat : String
deriving DecidableEq, Repr

/-- `fmt.count(' ')`: number of space characters in a format string. -/
def countSpaces (s : String) : Nat := s.data.countP (fun c => c = ' ')

/-- Number of tokens a format string occupies: `fmt.count(' ') + 1`. -/
def fmtTokens (fmt : String) : Nat := countSpaces fmt + 1

/-- `' '.join`: join tokens with single spaces (empty string for `[]`). -/
def joinSp : List String → String
  | [] => ""
  | [x] => x
  | x :: xs => x ++ " " ++ joinSp xs

/-- First occurrence of the delimiter `" :: "` in a character list:
returns the characters before and after it. -/
def findSep : List Char → Option (List Char × List Char)
  | [] => none
  | c :: cs =>
    if (c :: cs).take 4 = [' ', ':', ':', ' '] then some ([], (c :: cs).drop 4)
    else
      match findSep cs with
      | some (p, a) => some (c :: p, a)
      | none => none

/-- `text.split(' :: ', 1)`: split at the first occurrence of the delimiter
only; the second component is `none` when the delimiter does not occur
(Python's `[1]` would raise `IndexError` there). -/
def splitOnce (t : String) : String × Option String :=
  match findSep t.data with
  | none => (t, none)
  | some (p, a) => (⟨p⟩, some ⟨a⟩)

/-- Python truthiness of an optional string: `None` and `''` are falsy. -/
def pyFalsy : Option String → Bool
  | none => true
  | some s => decide (s = "")

/-- `timefstr(date_list, timeformat)`: parse the first token as a bare time
of day, combine it with today's date, and pop the token.  An empty list
raises `IndexError` (from `date_list[0]`) before anything else. -/
def timefstr (env : PEnv) (today : DT) (date_list : List String)
    (timeformat : String) : Except PErr DT × List String :=
  match date_list with
  | [] => (.error .indexError, [])
  | x :: rest =>
    match env.t_strptime x timeformat with
    | none => (.error .valueError, x :: rest)
    | some (hh, mm) => (.ok ⟨today.y, today.m, today.d, hh, mm⟩, rest)

/-- `datetimefstr(date_list, dtformat)`: join the first
`dtformat.count(' ') + 1` tokens with spaces, parse the joined string as one
unit, then pop that many tokens.  If the parse succeeds but the list is
shorter than the token count, the pop loop empties the list and then raises
`IndexError`.  (The source's `inferyear` parameter is unused and omitted.) -/
def datetimefstr (env : PEnv) (date_list : List String)
    (dtformat : String) : Except PErr DT × List String :=
  match env.dt_strptime (joinSp (date_list.take (fmtTokens dtformat))) dtformat with
  | none => (.error .valueError, date_list)
  | some dt =>
    if fmtTokens dtformat ≤ date_list.length then
      (.ok dt, date_list.drop (fmtTokens dtformat))
    else (.error .indexError, [])

/-- The `timefstr_day` closure inside `guessdatetimefstr`: parse a bare
time, then rebuild the instant on `default_day`'s calendar date
(`datetime(*(default_day.timetuple()[:3] + date.timetuple()[3:5]))`). -/
def timefstr_day (env : PEnv) (today default_day : DT) (date_list : List String)
    (timeformat : String) : Except PErr DT × List String :=
  match timefstr env today date_list timeformat with
  | (.ok t, l) =>
    match mkDT default_day.y default_day.m default_day.d t.h t.mi with
    | .ok t2 => (.ok t2, l)
    | .error e => (.error e, l)
  | (.error e, l) => (.error e, l)

/-- The `datefstr_year` closure inside `guessdatetimefstr`: parse with a
full matcher, then overwrite the year with `default_day`'s year
(`datetime(*(default_day.timetuple()[:1] + date.timetuple()[1:5]))`); the
rebuilt instant is validated by the `datetime` constructor. -/
def datefstr_year (env : PEnv) (default_day : DT) (date_list : List String)
    (dateformat : String) : Except PErr DT × List String :=
  match datetimefstr env date_list dateformat with
  | (.ok t, l) =>
    match mkDT default_day.y t.m t.d t.h t.mi with
    | .ok t2 => (.ok t2, l)
    | .error e => (.error e, l)
  | (.error e, l) => (.error e, l)

/-- One step of the fallback loop in `guessdatetimefstr`: a successful
matcher returns with its all-day flag; a `ValueError` is caught and the next
matcher runs on the (possibly already mutated) list; any other exception
propagates. -/
def tryNext (r : Except PErr DT × List String) (allDay : Bool)
    (k : List String → Except PErr (DT × Bool) × List String) :
    Except PErr (DT × Bool) × List String :=
  match r with
  | (.ok t, l) => (.ok (t, allDay), l)
  | (.error .valueError, l) => k l
  | (.error e, l) => (.error e, l)

/-- `guessdatetimefstr(dtime_list, locale, default_day)`: try the five
grammars in their fixed priority order and return the first success together
with its all-day flag; raise `ValueError` if none matches. -/
def guessdatetimefstr (env : PEnv) (today default_day : DT)
    (dtime_list : List String) (loc : Locale) :
    Except PErr (DT × Bool) × List String :=
  tryNext (datefstr_year env default_day dtime_list loc.datetimeformat) false fun l1 =>
  tryNext (datetimefstr env l1 loc.longdatetimeformat) false fun l2 =>
  tryNext (timefstr_day env today default_day l2 loc.timeformat) false fun l3 =>
  tryNext (datefstr_year env default_day l3 loc.dateformat) true fun l4 =>
  tryNext (datetimefstr env l4 loc.longdateformat) true fun l5 =>
  (.error .valueError, l5)

/-- The fatal message issued when the start of the event cannot be parsed. -/
def cannotParseMsg (s : String) : String :=
  "Cannot parse: " ++ s ++ " Please have a look at the documentation."

/-- The fatal message issued when the until date cannot be parsed. -/
def untilMsg : String :=
  "Cannot parse until date. Please have a look at the documentation."

/-- The fatal message issued for an invalid repeat keyword. -/
def repeatMsg : String :=
  "Invalid value for the repeat option. Possible values are: daily, weekly, monthly or yearly"

/-- Start resolution (`construct_event` lines 188-193): a `ValueError` from
the fallback resolver is fatal; the message joins the current (mutated)
token list. -/
def resolveStart (env : PEnv) (today : DT) (date_list : List String)
    (loc : Locale) : Except PErr (DT × Bool × List String) :=
  match guessdatetimefstr env today today date_list loc with
  | (.ok (t, ad), l) => .ok (t, ad, l)
  | (.error .valueError, l) => .error (.fatalError (cannotParseMsg (joinSp l)))
  | (.error e, _) => .error e

/-- End resolution (`construct_event` lines 195-201): the fallback resolver
runs with the resolved start as reference day; a `ValueError` is caught and
the end defaults to `start + timedelta(days=defaultdatelen - 1)` for all-day
events and `start + timedelta(minutes=defaulttimelen)` otherwise. -/
def resolveEnd (env : PEnv) (today : DT) (dtstart : DT) (all_day : Bool)
    (defaulttimelen defaultdatelen : Nat) (date_list : List String)
    (loc : Locale) : Except PErr (DT × List String) :=
  match guessdatetimefstr env today dtstart date_list loc with
  | (.ok (t, _), l) => .ok (t, l)
  | (.error .valueError, l) =>
    .ok ((if all_day then dtstart.addDays (defaultdatelen - 1)
          else dtstart.addMinutes defaulttimelen), l)
  | (.error e, _) => .error e

/-- The all-day part of the repair phase (`construct_event` lines 203-210):
extend the end by one day; if the end's year is this year but the start's is
not, rewrite the end's year to the start's; if the end is then before the
start, roll the end's year forward by one.  Each year rewrite goes through
the `datetime` constructor and can raise `ValueError`. -/
def repairAllDay (today : DT) (dtstart dtend : DT) : Except PErr DT :=
  let e1 := dtend.addDays 1
  let r2 : Except PErr DT :=
    if e1.y = today.y ∧ dtstart.y ≠ today.y then mkDT dtstart.y e1.m e1.d e1.h e1.mi
    else .ok e1
  match r2 with
  | .error e => .error e
  | .ok e2 =>
    if dtLt e2 dtstart then mkDT (e2.y + 1) e2.m e2.d e2.h e2.mi else .ok e2

/-- The shared part of the repair phase (`construct_event` lines 212-216):
if the end is before the start, rebuild it on the start's calendar date with
the end's time of day; if it is still before the start, add one day. -/
def repairShared (dtstart dtend : DT) : Except PErr DT :=
  let r1 : Except PErr DT :=
    if dtLt dtend dtstart then mkDT dtstart.y dtstart.m dtstart.d dtend.h dtend.mi
    else .ok dtend
  match r1 with
  | .error e => .error e
  | .ok e1 => .ok (if dtLt e1 dtstart then e1.addDays 1 else e1)

/-- The full repair phase (`construct_event` lines 203-216); returns the
repaired end instant. -/
def repair (today : DT) (all_day : Bool) (dtstart dtend : DT) : Except PErr DT :=
  match (if all_day then repairAllDay today dtstart dtend else .ok dtend) with
  | .error e => .error e
  | .ok e1 => repairShared dtstart e1

/-- A start or end value attached to the event: a pure date for all-day
events, or an instant localized to a timezone. -/
inductive EvTime
  | date (d : Date)
  | loc (tz : Tz) (t : DT)
deriving DecidableEq, Repr

/-- `construct_event` lines 217-229: all-day events drop the time-of-day
(`dtstart.date()`, `dtend.date()`); otherwise the next token is tried as a
timezone name — on success both instants are localized to it and the token
popped, on failure both are localized to the default timezone and the token
is left in place.  With no token remaining, `date_list[0]` raises
`IndexError`. -/
def finalizeTimes (env : PEnv) (all_day : Bool) (default_timezone : Tz)
    (dtstart dtend : DT) (date_list : List String) :
    Except PErr ((EvTime × EvTime) × List String) :=
  if all_day then .ok ((.date dtstart.date, .date dtend.date), date_list)
  else
    match date_list with
    | [] => .error .indexError
    | tok :: rest =>
      match env.tz_lookup tok with
      | some tz => .ok ((.loc tz dtstart, .loc tz dtend), rest)
      | none => .ok ((.loc default_timezone dtstart, .loc default_timezone dtend),
                     tok :: rest)

/-- Stages 1-4 of `construct_event` (lines 180-229): start resolution, end
resolution, repair, and date conversion / timezone resolution. -/
def preStages (env : PEnv) (today : DT) (date_list : List String) (loc : Locale)
    (default_timezone : Tz) (defaulttimelen defaultdatelen : Nat) :
    Except PErr ((EvTime × EvTime) × List String) :=
  match resolveStart env today date_list loc with
  | .error e => .error e
  | .ok (s, ad, l1) =>
    match resolveEnd env today s ad defaulttimelen defaultdatelen l1 loc with
    | .error e => .error e
    | .ok (e0, l2) =>
      match repair today ad s e0 with
      | .error e => .error e
      | .ok e1 => finalizeTimes env ad default_timezone s e1 l2

/-- A recurrence declaration: frequency plus optional until instant. -/
structure RRule where
  freq : String
  untl : Option DT
deriving DecidableEq, Repr

/-- The assembled event: the record of `event.add` calls made by the
source.  `description` and `location` are present exactly when the source
adds them (they are guarded by truthiness checks). -/
structure Event where
  dtstart : EvTime
  dtend : EvTime
  dtstamp : DT
  summary : String
  description : Option String
  location : Option String
  rrule : Option RRule
  uid : String
deriving DecidableEq, Repr

/-- One step of the until-parsing loop: a `ValueError` is caught and the
next format is tried on the (shared, possibly mutated) list; other
exceptions propagate. -/
def tryUntil (r : Except PErr DT × List String)
    (k : List String → Except PErr DT × List String) :
    Except PErr DT × List String :=
  match r with
  | (.ok t, l) => (.ok t, l)
  | (.error .valueError, l) => k l
  | (.error e, l) => (.error e, l)

/-- `construct_event` lines 250-264: parse the until date by trying, in
order, `datetimefstr` with the datetime, long datetime, (then `timefstr`
with the time format,) date and long date formats; fatal if none matches. -/
def parseUntil (env : PEnv) (today : DT) (untl : List String) (loc : Locale) :
    Except PErr DT × List String :=
  tryUntil (datetimefstr env untl loc.datetimeformat) fun l1 =>
  tryUntil (datetimefstr env l1 loc.longdatetimeformat) fun l2 =>
  tryUntil (timefstr env today l2 loc.timeformat) fun l3 =>
  tryUntil (datetimefstr env l3 loc.dateformat) fun l4 =>
  tryUntil (datetimefstr env l4 loc.longdateformat) fun l5 =>
  (.error (.fatalError untilMsg), l5)

/-- Stage 5 of `construct_event` (lines 231-278): join the remaining tokens
into free text, split out summary and description, validate the recurrence
arguments, and emit the event record. -/
def buildEvent (env : PEnv) (today : DT) (times : EvTime × EvTime)
    (date_list : List String) (loc : Locale)
    (description location rep : Option String)
    (untl : Option (List String)) (now : DT) (uid : String) :
    Except PErr Event :=
  let text := joinSp date_list
  let sd : String × Option String :=
    if pyFalsy description || pyFalsy location then
      match (splitOnce text).2 with
      | some d2 => ((splitOnce text).1, some d2)
      | none => ((splitOnce text).1, description)
    else (text, description)
  let rrule : Except PErr (Option RRule) :=
    match rep with
    | none => .ok none
    | some r =>
      if r = "" ∨ r = "none" then .ok none
      else if r = "daily" ∨ r = "weekly" ∨ r = "monthly" ∨ r = "yearly" then
        match untl with
        | none => .ok (some ⟨r, none⟩)
        | some u =>
          if u.isEmpty then .ok (some ⟨r, none⟩)
          else
            match parseUntil env today u loc with
            | (.ok ud, _) => .ok (some ⟨r, some ud⟩)
            | (.error e, _) => .error e
      else .error (.fatalError repeatMsg)
  match rrule with
  | .error e => .error e
  | .ok rr =>
    .ok { dtstart := times.1, dtend := times.2, dtstamp := now,
          summary := sd.1,
          description := if pyFalsy sd.2 then none else sd.2,
          location := if pyFalsy location then none else location,
          rrule := rr, uid := uid }

/-- `construct_event(date_list, ... )`: the whole assembler. -/
def construct_event (env : PEnv) (today : DT) (date_list : List String)
    (loc : Locale) (default_timezone : Tz)
    (defaulttimelen defaultdatelen : Nat)
    (description location rep : Option String)
    (untl : Option (List String)) (now : DT) (uid : String) :
    Except PErr Event :=
  match preStages env today date_list loc default_timezone defaulttimelen
      defaultdatelen with
  | .error e => .error e
  | .ok (times, l3) =>
    buildEvent env today times l3 loc description location rep untl now uid

/-- A value passed where Python expects a `date`: either a pure date or a
`datetime` (which is a subclass of `date`, so `isinstance(x, date)` holds
for both). -/
inductive PyDateVal
  | pd (d : Date)
  | pdt (t : DT)
deriving DecidableEq, Repr

/-- The calendar-date part used by `datetime.combine` (a `datetime` argument
contributes only its `date()`). -/
def PyDateVal.datePart : PyDateVal → Date
  | .pd d => d
  | .pdt t => t.date

/-- The event record produced by `new_event`; the supplied end value is used
as passed, and a supplied timezone localizes both start and end. -/
structure NewEvent where
  dtstart : DT
  dtend : PyDateVal
  tz : Option Tz
  dtstamp : DT
  summary : String
  uid : String
deriving DecidableEq, Repr

/-- `new_event(dtstart, dtend, summary, timezone)`: the quick constructor.
`clock_now` is the `datetime.now()` read at entry; it is truncated to the
full hour and advanced by 60 minutes.  A missing start becomes that next
full hour; a start passing the `isinstance(dtstart, date)` test (every
`date` and every `datetime` does) is rebuilt via
`datetime.combine(dtstart, inonehour.time())`. -/
def new_event (clock_now : DT) (dtstart dtend : Option PyDateVal)
    (summary : Option String) (timezone : Option Tz)
    (stamp_now : DT) (uid : String) : NewEvent :=
  let nowTrunc : DT := ⟨clock_now.y, clock_now.m, clock_now.d, clock_now.h, 0⟩
  let inonehour := nowTrunc.addMinutes 60
  let ds : DT :=
    match dtstart with
    | none => inonehour
    | some v => ⟨v.datePart.y, v.datePart.m, v.datePart.d, inonehour.h, inonehour.mi⟩
  let de : PyDateVal :=
    match dtend with
    | none => .pdt (ds.addMinutes 60)
    | some v => v
  { dtstart := ds, dtend := de, tz := timezone, dtstamp := stamp_now,
    summary := match summary with | none => "New Event" | some s => s,
    uid := uid }

/-! Concrete format configurations and parse environments, used to
instantiate the theorems below on concrete inputs.  The parse tables list
exactly the strings the corresponding CPython `strptime` calls would accept
in each scenario. -/

/-- A locale in the style of khal's defaults: time `%H:%M`, short date
`%d.%m.`, long date `%d.%m.%Y`, short date-time `%d.%m. %H:%M`, long
date-time `%Y-%m-%d %H:%M`. -/
def locA : Locale :=
  ⟨"%H:%M", "%d.%m.", "%d.%m.%Y", "%d.%m. %H:%M", "%Y-%m-%d %H:%M"⟩

/-- A locale whose short date format carries a year (`%Y-%m-%d`). -/
def locB : Locale :=
  ⟨"%H:%M", "%Y-%m-%d", "%d.%m.%Y", "%d.%m. %H:%M", "%Y-%m-%d %H:%M"⟩

/-- The reference clock used by the concrete scenarios. -/
def today5 : DT := ⟨2024, 6, 15, 12, 0⟩

/-- Environment for the same-day time-repair scenario: the long date-time
grammar accepts `2024-06-01 09:00` and the time grammar accepts `08:00`;
no token names a known timezone. -/
def envC5 : PEnv where
  dt_strptime s f :=
    if f = "%Y-%m-%d %H:%M" ∧ s = "2024-06-01 09:00" then some ⟨2024, 6, 1, 9, 0⟩
    else none
  t_strptime s f := if f = "%H:%M" ∧ s = "08:00" then some (8, 0) else none
  tz_lookup _ := none

/-- Environment in which only the bare time `09:00` parses. -/
def envC2 : PEnv where
  dt_strptime _ _ := none
  t_strptime s f := if f = "%H:%M" ∧ s = "09:00" then some (9, 0) else none
  tz_lookup _ := none

/-- Environment in which only the bare time `10:00` parses. -/
def envC3 : PEnv where
  dt_strptime _ _ := none
  t_strptime s f := if f = "%H:%M" ∧ s = "10:00" then some (10, 0) else none
  tz_lookup _ := none

/-- Environment in which the year-carrying short date format of `locB`
accepts `2024-02-29` (a leap-day with explicit year), as CPython's
`strptime` would. -/
def envC6 : PEnv where
  dt_strptime s f :=
    if f = "%Y-%m-%d" ∧ s = "2024-02-29" then some ⟨2024, 2, 29, 0, 0⟩ else none
  t_strptime _ _ := none
  tz_lookup _ := none

/-- Environment in which the yearless short date format of `locA` accepts
`01.06.` with the placeholder year 1900, as CPython's `strptime` would. -/
def envW : PEnv where
  dt_strptime s f :=
    if f = "%d.%m." ∧ s = "01.06." then some ⟨1900, 6, 1, 0, 0⟩ else none
  t_strptime _ _ := none
  tz_lookup _ := none

/-- Environment in which the bare times `09:00` and `10:00` parse. -/
def envC9 : PEnv where
  dt_strptime _ _ := none
  t_strptime s f :=
    if f = "%H:%M" ∧ s = "09:00" then some (9, 0)
    else if f = "%H:%M" ∧ s = "10:00" then some (10, 0)
    else none
  tz_lookup _ := none

/-- Environment in which the timezone lookup knows the name Europe/Berlin. -/
def envTz : PEnv where
  dt_strptime _ _ := none
  t_strptime _ _ := none
  tz_lookup s := if s = "Europe/Berlin" then some "Europe/Berlin" else none

/-- Comparison of attached event times: end not strictly before start, on
pure dates for all-day events and on the civil instants for localized
events. -/
def evTimeLeB : EvTime → EvTime → Bool
  | .date a, .date b => !dateLt b a
  | .loc _ a, .loc _ b => !dtLt b a
  | _, _ => false

/-- Behavioural contract of a fallback-resolver result on the list `l`:
a success removed exactly a prefix whose length `k` satisfies `S`, and a
failure with `ValueError` left the list unchanged. -/
def GoodGuess (res : Except PErr (DT × Bool) × List String) (l : List String)
    (S : Bool → Nat → Prop) : Prop :=
  (∀ t ad lr, res = (.ok (t, ad), lr) →
    ∃ k, lr = l.drop k ∧ k ≤ l.length ∧ S ad k) ∧
  (∀ lr, res = (.error .valueError, lr) → lr = l)

/-- The event built in the same-day time-repair scenario. -/
def evC5val : Event :=
  ⟨.loc "UTC" ⟨2024, 6, 1, 9, 0⟩, .loc "UTC" ⟨2024, 6, 2, 8, 0⟩,
   ⟨2024, 6, 15, 12, 30⟩, "standup", none, none, none, "U"⟩

/-- The event built in the description-overwrite scenario. -/
def evC3val : Event :=
  ⟨.loc "UTC" ⟨2024, 6, 15, 10, 0⟩, .loc "UTC" ⟨2024, 6, 15, 11, 0⟩,
   today5, "a", some "b", none, none, "U"⟩

/-- The event built in the empty-repeat scenario. -/
def evC8val : Event :=
  ⟨.loc "UTC" ⟨2024, 6, 15, 10, 0⟩, .loc "UTC" ⟨2024, 6, 15, 11, 0⟩,
   today5, "x", none, none, none, "U"⟩

end Khal

namespace Khal

/-! Helper lemmas about the calendar arithmetic and the repair phase. -/

lemma addDays1_same_date_not_lt (s : DT) (hh mm : Nat) :
    dtLt (DT.addDays1 ⟨s.y, s.m, s.d, hh, mm⟩) s = false := by
  simp only [DT.addDays1, dtLt, decide_eq_false_iff_not, dtLtP]
  split_ifs <;> simp

lemma mkDT_ok_eq (y m d hh mm : Nat) (t : DT) (h : mkDT y m d hh mm = .ok t) :
    t = ⟨y, m, d, hh, mm⟩ ∧ t.valid = true := by
  unfold mkDT at h
  split at h
  · cases h; exact ⟨rfl, by assumption⟩
  · cases h

lemma repairShared_ok_not_lt (s e e2 : DT) (h : repairShared s e = .ok e2) :
    dtLt e2 s = false := by
  simp only [repairShared] at h
  split at h
  · cases h
  · rename_i e1 heq
    injection h with h
    subst h
    split at heq
    · obtain ⟨he1, -⟩ := mkDT_ok_eq _ _ _ _ _ e1 heq
      subst he1
      split
      · exact addDays1_same_date_not_lt s e.h e.mi
      · rename_i hlt
        simpa using hlt
    · rename_i hlt
      injection heq with heq
      subst heq
      rw [if_neg hlt]
      simpa using hlt

lemma repair_ok_not_lt (today : DT) (ad : Bool) (s e e2 : DT)
    (h : repair today ad s e = .ok e2) : dtLt e2 s = false := by
  unfold repair at h
  split at h
  · cases h
  · rename_i e1 heq
    exact repairShared_ok_not_lt s e1 e2 h

lemma dateLt_of_dt_not_lt (a b : DT) (h : dtLt a b = false) :
    dateLt a.date b.date = false := by
  simp only [dtLt, dateLt, decide_eq_false_iff_not, dtLtP, dateLtP, DT.date] at h ⊢
  omega

lemma buildEvent_ok_fields (env : PEnv) (today : DT) (times : EvTime × EvTime)
    (l : List String) (loc : Locale) (desc locn rep : Option String)
    (untl : Option (List String)) (now : DT) (uid : String) (ev : Event)
    (h : buildEvent env today times l loc desc locn rep untl now uid = .ok ev) :
    ev.dtstart = times.1 ∧ ev.dtend = times.2 := by
  simp only [buildEvent] at h
  split at h
  · cases h
  · injection h with h
    subst h
    exact ⟨rfl, rfl⟩

lemma addDays_h_mi (t : DT) (n : Nat) :
    (t.addDays n).h = t.h ∧ (t.addDays n).mi = t.mi := by
  induction n with
  | zero => exact ⟨rfl, rfl⟩
  | succ k ih =>
    obtain ⟨h1, h2⟩ := ih
    simp only [DT.addDays, DT.addDays1]
    split_ifs <;> simp [h1, h2]

lemma repairShared_ok_exists (s e : DT) (hs : s.valid = true) (he : e.timeOk = true) :
    ∃ e2, repairShared s e = .ok e2 := by
  simp only [repairShared]
  by_cases hlt : dtLt e s = true
  · rw [if_pos hlt]
    have hmk : mkDT s.y s.m s.d e.h e.mi = .ok ⟨s.y, s.m, s.d, e.h, e.mi⟩ := by
      unfold mkDT
      rw [if_pos]
      simp only [DT.valid, DT.dateOk, DT.timeOk] at hs he ⊢
      simp only [Bool.and_eq_true] at hs he ⊢
      exact ⟨hs.1, he⟩
    rw [hmk]
    exact ⟨_, rfl⟩
  · rw [if_neg hlt]
    exact ⟨_, rfl⟩

lemma repair_nonallday_ok (today : DT) (s e : DT) (hs : s.valid = true)
    (he : e.timeOk = true) : ∃ e2, repair today false s e = .ok e2 := by
  simp only [repair]
  obtain ⟨e2, h2⟩ := repairShared_ok_exists s e hs he
  rw [if_neg (by simp)]
  exact ⟨e2, h2⟩

lemma timeOk_addDays (t : DT) (n : Nat) : (t.addDays n).timeOk = t.timeOk := by
  obtain ⟨h1, h2⟩ := addDays_h_mi t n
  simp [DT.timeOk, h1, h2]

lemma mkDT_cases (y m d hh mm : Nat) :
    (mkDT y m d hh mm = .ok ⟨y, m, d, hh, mm⟩ ∧ (DT.mk y m d hh mm).valid = true)
    ∨ mkDT y m d hh mm = .error .valueError := by
  unfold mkDT
  split
  · left; exact ⟨rfl, by assumption⟩
  · right; rfl

lemma valid_timeOk (t : DT) (h : t.valid = true) : t.timeOk = true := by
  simp only [DT.valid, Bool.and_eq_true] at h
  exact h.2

lemma repairAllDay_cases (today s e : DT) (he : e.timeOk = true) :
    (∃ e1, repairAllDay today s e = .ok e1 ∧ e1.timeOk = true)
    ∨ repairAllDay today s e = .error .valueError := by
  simp only [repairAllDay]
  have hto : (e.addDays 1).timeOk = true := by rw [timeOk_addDays]; exact he
  have step : ∀ t : DT, t.timeOk = true →
      (∃ e1, (if dtLt t s then mkDT (t.y + 1) t.m t.d t.h t.mi else .ok t) = .ok e1
        ∧ e1.timeOk = true)
      ∨ (if dtLt t s then mkDT (t.y + 1) t.m t.d t.h t.mi else .ok t)
          = .error .valueError := by
    intro t ht
    by_cases hlt : dtLt t s = true
    · rw [if_pos hlt]
      rcases mkDT_cases (t.y + 1) t.m t.d t.h t.mi with ⟨hok, hval⟩ | herr
      · left
        exact ⟨_, hok, valid_timeOk _ hval⟩
      · right; exact herr
    · rw [if_neg hlt]
      left; exact ⟨t, rfl, ht⟩
  by_cases hc : (e.addDays 1).y = today.y ∧ s.y ≠ today.y
  · rw [if_pos hc]
    rcases mkDT_cases s.y (e.addDays 1).m (e.addDays 1).d (e.addDays 1).h
        (e.addDays 1).mi with ⟨hok, hval⟩ | herr
    · rw [hok]
      exact step _ (valid_timeOk _ hval)
    · rw [herr]
      right; rfl
  · rw [if_neg hc]
    exact step _ hto

lemma repair_cases (today : DT) (ad : Bool) (s e : DT) (hs : s.valid = true)
    (he : e.timeOk = true) :
    (∃ e2, repair today ad s e = .ok e2)
    ∨ (ad = true ∧ repair today ad s e = .error .valueError) := by
  cases ad with
  | false => exact Or.inl (repair_nonallday_ok today s e hs he)
  | true =>
    simp only [repair, if_pos]
    rcases repairAllDay_cases today s e he with ⟨e1, hok, ht1⟩ | herr
    · rw [hok]
      exact Or.inl (repairShared_ok_exists s e1 hs ht1)
    · rw [herr]
      exact Or.inr ⟨by trivial, rfl⟩

lemma mkDT_err (y m d hh mm : Nat) (pe : PErr) (h : mkDT y m d hh mm = .error pe) :
    pe = .valueError := by
  unfold mkDT at h
  split at h
  · cases h
  · injection h with h
    exact h.symm

lemma repairShared_err (s e : DT) (pe : PErr) (h : repairShared s e = .error pe) :
    pe = .valueError := by
  simp only [repairShared] at h
  split at h
  · rename_i e1 heq
    injection h with h
    subst h
    split at heq
    · exact mkDT_err _ _ _ _ _ _ heq
    · cases heq
  · cases h

lemma repairAllDay_err (today s e : DT) (pe : PErr)
    (h : repairAllDay today s e = .error pe) : pe = .valueError := by
  simp only [repairAllDay] at h
  split at h
  · rename_i e1 heq
    injection h with h
    subst h
    split at heq
    · exact mkDT_err _ _ _ _ _ _ heq
    · cases heq
  · rename_i e2 heq
    split at h
    · exact mkDT_err _ _ _ _ _ _ h
    · cases h

lemma repair_err (today : DT) (ad : Bool) (s e : DT) (pe : PErr)
    (h : repair today ad s e = .error pe) : pe = .valueError := by
  unfold repair at h
  split at h
  · rename_i e1 heq
    split at heq
    · injection h with h
      subst h
      exact repairAllDay_err _ _ _ _ heq
    · cases heq
  · rename_i e1 heq
    exact repairShared_err _ _ _ h

lemma preStages_ok_le (env : PEnv) (today : DT) (date_list : List String)
    (loc : Locale) (dtz : Tz) (dtl ddl : Nat) (times : EvTime × EvTime)
    (l3 : List String)
    (h : preStages env today date_list loc dtz dtl ddl = .ok (times, l3)) :
    evTimeLeB times.1 times.2 = true := by
  unfold preStages at h
  cases hrs : resolveStart env today date_list loc with
  | error e => rw [hrs] at h; cases h
  | ok sadl =>
    rw [hrs] at h
    obtain ⟨s, ad, l1⟩ := sadl
    dsimp only at h
    cases hre : resolveEnd env today s ad dtl ddl l1 loc with
    | error e => rw [hre] at h; cases h
    | ok el2 =>
      rw [hre] at h
      obtain ⟨e0, l2⟩ := el2
      dsimp only at h
      cases hrp : repair today ad s e0 with
      | error e => rw [hrp] at h; cases h
      | ok e1 =>
        rw [hrp] at h
        dsimp only at h
        have hnl : dtLt e1 s = false := repair_ok_not_lt _ _ _ _ _ hrp
        unfold finalizeTimes at h
        split at h
        · injection h with h
          injection h with h hl
          subst h
          simp only [evTimeLeB]
          rw [dateLt_of_dt_not_lt _ _ hnl]
          rfl
        · split at h
          · cases h
          · split at h
            · injection h with h
              injection h with h hl
              subst h
              simp only [evTimeLeB, hnl]
              rfl
            · injection h with h
              injection h with h hl
              subst h
              simp only [evTimeLeB, hnl]
              rfl

end Khal

namespace Khal

/-! Helper lemmas about the format matchers and the fallback resolver. -/

lemma daysInMonth_1900_le (y m : Nat) : daysInMonth 1900 m ≤ daysInMonth y m := by
  unfold daysInMonth
  have h19 : isLeap 1900 = false := by decide
  rw [h19]
  split_ifs <;> simp_all

lemma mkDT_ok_of (y m d hh mm : Nat) (h : (DT.mk y m d hh mm).valid = true) :
    mkDT y m d hh mm = .ok ⟨y, m, d, hh, mm⟩ := by
  unfold mkDT
  rw [if_pos h]

lemma rewrite_valid_1900 (yy : Nat) (t : DT) (h1900 : t.y = 1900)
    (hv : t.valid = true) (hyy : 1 ≤ yy) :
    (DT.mk yy t.m t.d t.h t.mi).valid = true := by
  simp only [DT.valid, DT.dateOk, DT.timeOk, Bool.and_eq_true,
    decide_eq_true_eq] at hv ⊢
  have hle := daysInMonth_1900_le yy t.m
  rw [h1900] at hv
  omega

lemma datetimefstr_ok (env : PEnv) (l : List String) (f : String) (t : DT)
    (lr : List String) (h : datetimefstr env l f = (.ok t, lr)) :
    env.dt_strptime (joinSp (l.take (fmtTokens f))) f = some t
      ∧ lr = l.drop (fmtTokens f) ∧ fmtTokens f ≤ l.length := by
  simp only [datetimefstr] at h
  split at h
  · rw [Prod.mk.injEq] at h
    cases h.1
  · rename_i dt hst
    split at h
    · rw [Prod.mk.injEq] at h
      obtain ⟨h1, h2⟩ := h
      injection h1 with h1
      subst h1
      exact ⟨hst, h2.symm, by assumption⟩
    · rw [Prod.mk.injEq] at h
      cases h.1

lemma datetimefstr_vErr (env : PEnv) (l : List String) (f : String)
    (lr : List String) (h : datetimefstr env l f = (.error .valueError, lr)) :
    lr = l := by
  simp only [datetimefstr] at h
  split at h
  · rw [Prod.mk.injEq] at h
    exact h.2.symm
  · split at h
    · rw [Prod.mk.injEq] at h
      cases h.1
    · rw [Prod.mk.injEq] at h
      obtain ⟨h1, -⟩ := h
      injection h1 with h1
      cases h1

lemma timefstr_ok (env : PEnv) (today : DT) (l : List String) (f : String)
    (t : DT) (lr : List String) (h : timefstr env today l f = (.ok t, lr)) :
    (∃ x hh mm, l.take 1 = [x] ∧ env.t_strptime x f = some (hh, mm)
        ∧ t = ⟨today.y, today.m, today.d, hh, mm⟩)
      ∧ lr = l.drop 1 ∧ 1 ≤ l.length := by
  unfold timefstr at h
  split at h
  · rw [Prod.mk.injEq] at h
    cases h.1
  · rename_i x rest
    split at h
    · rw [Prod.mk.injEq] at h
      cases h.1
    · rename_i hh mm hst
      rw [Prod.mk.injEq] at h
      obtain ⟨h1, h2⟩ := h
      injection h1 with h1
      subst h1
      exact ⟨⟨x, hh, mm, rfl, hst, rfl⟩, h2.symm, by simp⟩

lemma timefstr_vErr (env : PEnv) (today : DT) (l : List String) (f : String)
    (lr : List String) (h : timefstr env today l f = (.error .valueError, lr)) :
    lr = l := by
  unfold timefstr at h
  split at h
  · rw [Prod.mk.injEq] at h
    obtain ⟨h1, -⟩ := h
    injection h1 with h1
    cases h1
  · split at h
    · rw [Prod.mk.injEq] at h
      exact h.2.symm
    · rw [Prod.mk.injEq] at h
      cases h.1

lemma timefstr_timeOk (env : PEnv) (today : DT) (l : List String) (f : String)
    (t : DT) (lr : List String)
    (hT : ∀ x hh mm, env.t_strptime x f = some (hh, mm) → hh < 24 ∧ mm < 60)
    (h : timefstr env today l f = (.ok t, lr)) : t.timeOk = true := by
  obtain ⟨⟨x, hh, mm, -, hst, ht⟩, -, -⟩ := timefstr_ok env today l f t lr h
  subst ht
  obtain ⟨h1, h2⟩ := hT x hh mm hst
  simp only [DT.timeOk, Bool.and_eq_true, decide_eq_true_eq]
  exact ⟨h1, h2⟩

lemma timefstr_day_ok (env : PEnv) (today dd : DT) (l : List String) (f : String)
    (t : DT) (lr : List String)
    (hT : ∀ x hh mm, env.t_strptime x f = some (hh, mm) → hh < 24 ∧ mm < 60)
    (hD : dd.dateOk = true)
    (h : timefstr_day env today dd l f = (.ok t, lr)) :
    lr = l.drop 1 ∧ 1 ≤ l.length := by
  unfold timefstr_day at h
  split at h
  · rename_i t0 l0 heq
    split at h
    · rw [Prod.mk.injEq] at h
      obtain ⟨-, h2⟩ := h
      obtain ⟨-, h3, h4⟩ := timefstr_ok env today l f t0 l0 heq
      exact ⟨h2 ▸ h3, h4⟩
    · rw [Prod.mk.injEq] at h
      cases h.1
  · rw [Prod.mk.injEq] at h
    cases h.1

lemma timefstr_day_vErr (env : PEnv) (today dd : DT) (l : List String) (f : String)
    (lr : List String)
    (hT : ∀ x hh mm, env.t_strptime x f = some (hh, mm) → hh < 24 ∧ mm < 60)
    (hD : dd.dateOk = true)
    (h : timefstr_day env today dd l f = (.error .valueError, lr)) : lr = l := by
  unfold timefstr_day at h
  split at h
  · rename_i t0 l0 heq
    have hto : t0.timeOk = true := timefstr_timeOk env today l f t0 l0 hT heq
    have hval : (DT.mk dd.y dd.m dd.d t0.h t0.mi).valid = true := by
      simp only [DT.valid, DT.dateOk, DT.timeOk, Bool.and_eq_true,
        decide_eq_true_eq] at hD hto ⊢
      exact ⟨hD, hto⟩
    rw [mkDT_ok_of _ _ _ _ _ hval] at h
    rw [Prod.mk.injEq] at h
    cases h.1
  · rename_i e l0 heq
    rw [Prod.mk.injEq] at h
    obtain ⟨h1, h2⟩ := h
    injection h1 with h1
    subst h1
    rw [← h2]
    exact timefstr_vErr env today l f l0 heq

lemma datefstr_year_ok (env : PEnv) (dd : DT) (l : List String) (f : String)
    (t : DT) (lr : List String)
    (hY : ∀ x u, env.dt_strptime x f = some u → u.y = 1900 ∧ u.valid = true)
    (hD : dd.dateOk = true)
    (h : datefstr_year env dd l f = (.ok t, lr)) :
    lr = l.drop (fmtTokens f) ∧ fmtTokens f ≤ l.length := by
  unfold datefstr_year at h
  split at h
  · rename_i t0 l0 heq
    split at h
    · rw [Prod.mk.injEq] at h
      obtain ⟨-, h2⟩ := h
      obtain ⟨-, h3, h4⟩ := datetimefstr_ok env l f t0 l0 heq
      exact ⟨h2 ▸ h3, h4⟩
    · rw [Prod.mk.injEq] at h
      cases h.1
  · rw [Prod.mk.injEq] at h
    cases h.1

lemma datefstr_year_vErr (env : PEnv) (dd : DT) (l : List String) (f : String)
    (lr : List String)
    (hY : ∀ x u, env.dt_strptime x f = some u → u.y = 1900 ∧ u.valid = true)
    (hD : dd.dateOk = true)
    (h : datefstr_year env dd l f = (.error .valueError, lr)) : lr = l := by
  unfold datefstr_year at h
  split at h
  · rename_i t0 l0 heq
    obtain ⟨hst, -, -⟩ := datetimefstr_ok env l f t0 l0 heq
    obtain ⟨h1900, hval⟩ := hY _ _ hst
    have hyy : 1 ≤ dd.y := by
      simp only [DT.dateOk, Bool.and_eq_true, decide_eq_true_eq] at hD
      exact hD.1.1.1.1
    rw [mkDT_ok_of _ _ _ _ _ (rewrite_valid_1900 dd.y t0 h1900 hval hyy)] at h
    rw [Prod.mk.injEq] at h
    cases h.1
  · rename_i e l0 heq
    rw [Prod.mk.injEq] at h
    obtain ⟨h1, h2⟩ := h
    injection h1 with h1
    subst h1
    rw [← h2]
    exact datetimefstr_vErr env l f l0 heq

lemma tryNext_good (r : Except PErr DT × List String) (ad : Bool)
    (K : List String → Except PErr (DT × Bool) × List String) (l : List String)
    (k : Nat) (S : Bool → Nat → Prop)
    (hok : ∀ t lr, r = (.ok t, lr) → lr = l.drop k ∧ k ≤ l.length)
    (hve : ∀ lr, r = (.error .valueError, lr) → lr = l)
    (hS : S ad k)
    (hK : GoodGuess (K l) l S) :
    GoodGuess (tryNext r ad K) l S := by
  obtain ⟨r0, rl⟩ := r
  cases r0 with
  | ok t0 =>
    constructor
    · intro t ad2 lr h
      unfold tryNext at h
      rw [Prod.mk.injEq] at h
      obtain ⟨h1, h2⟩ := h
      injection h1 with h1
      injection h1 with ht had
      obtain ⟨h3, h4⟩ := hok t0 rl rfl
      subst had h2
      exact ⟨k, h3, h4, hS⟩
    · intro lr h
      unfold tryNext at h
      rw [Prod.mk.injEq] at h
      cases h.1
  | error e =>
    cases e with
    | valueError =>
      have hrl : rl = l := hve rl rfl
      subst hrl
      constructor
      · intro t ad2 lr h
        unfold tryNext at h
        exact hK.1 t ad2 lr h
      · intro lr h
        unfold tryNext at h
        exact hK.2 lr h
    | indexError =>
      constructor
      · intro t ad2 lr h
        unfold tryNext at h
        rw [Prod.mk.injEq] at h
        cases h.1
      · intro lr h
        unfold tryNext at h
        rw [Prod.mk.injEq] at h
        obtain ⟨h1, -⟩ := h
        injection h1 with h1
        cases h1
    | fatalError msg =>
      constructor
      · intro t ad2 lr h
        unfold tryNext at h
        rw [Prod.mk.injEq] at h
        cases h.1
      · intro lr h
        unfold tryNext at h
        rw [Prod.mk.injEq] at h
        obtain ⟨h1, -⟩ := h
        injection h1 with h1
        cases h1

end Khal

namespace Khal

/-- Claim C1: whenever `construct_event` returns an event, the end attached
as dtend is not strictly before the start attached as dtstart — both for
timed events (instants localized to a timezone) and for all-day events
(pure dates). -/
theorem construct_event_end_ge_start (env : PEnv) (today : DT)
    (date_list : List String) (loc : Locale) (dtz : Tz) (dtl ddl : Nat)
    (desc locn rep : Option String) (untl : Option (List String)) (now : DT)
    (uid : String) (ev : Event)
    (h : construct_event env today date_list loc dtz dtl ddl desc locn rep untl
        now uid = .ok ev) :
    evTimeLeB ev.dtstart ev.dtend = true := by
  unfold construct_event at h
  cases hpre : preStages env today date_list loc dtz dtl ddl with
  | error e => rw [hpre] at h; cases h
  | ok tl =>
    rw [hpre] at h
    obtain ⟨times, l3⟩ := tl
    dsimp only at h
    obtain ⟨hst, hen⟩ := buildEvent_ok_fields _ _ _ _ _ _ _ _ _ _ _ _ h
    rw [hst, hen]
    exact preStages_ok_le _ _ _ _ _ _ _ _ _ hpre

/-- Witness for claim C1 at the concrete four-token scenario. -/
theorem construct_event_end_ge_start_witness :
    evTimeLeB evC5val.dtstart evC5val.dtend = true :=
  construct_event_end_ge_start envC5 today5
    ["2024-06-01", "09:00", "08:00", "standup"] locA "UTC" 60 1 none none none
    none ⟨2024, 6, 15, 12, 30⟩ "U" evC5val rfl

/-- Claim C2 counterexample: the single token 09:00 is consumed entirely by
start resolution, so no tokens remain; end resolution then raises
`IndexError` instead of defaulting, and `construct_event` returns an error
rather than an event with a defaulted end. -/
theorem construct_event_empty_end_cex :
    resolveStart envC2 today5 ["09:00"] locA = .ok (⟨2024, 6, 15, 9, 0⟩, false, []) ∧
    construct_event envC2 today5 ["09:00"] locA "UTC" 60 1 none none none none
      today5 "U" = .error .indexError :=
  ⟨rfl, rfl⟩

/-- Claim C2 (amended): when end resolution fails with a parse failure
(`ValueError`) after start has been resolved, no error is raised: the end
defaults to start plus `defaultdatelen - 1` days when the start was all-day
and to start plus `defaulttimelen` minutes otherwise, and assembly continues
with that default.  When no tokens remain, the resolver raises `IndexError`
instead (see the counterexample). -/
theorem construct_event_end_default (env : PEnv) (today : DT)
    (date_list : List String) (loc : Locale) (dtz : Tz) (dtl ddl : Nat)
    (desc locn rep : Option String) (untl : Option (List String)) (now : DT)
    (uid : String) (s : DT) (ad : Bool) (l1 : List String)
    (h1 : resolveStart env today date_list loc = .ok (s, ad, l1))
    (h2 : (guessdatetimefstr env today s l1 loc).1 = .error .valueError) :
    resolveEnd env today s ad dtl ddl l1 loc =
      .ok ((if ad then s.addDays (ddl - 1) else s.addMinutes dtl),
           (guessdatetimefstr env today s l1 loc).2) ∧
    construct_event env today date_list loc dtz dtl ddl desc locn rep untl now uid
      = (match repair today ad s
            (if ad then s.addDays (ddl - 1) else s.addMinutes dtl) with
         | .error e => .error e
         | .ok e1 =>
           match finalizeTimes env ad dtz s e1
               (guessdatetimefstr env today s l1 loc).2 with
           | .error e => .error e
           | .ok (times, l3) =>
             buildEvent env today times l3 loc desc locn rep untl now uid) := by
  have hg := Prod.mk.eta (p := guessdatetimefstr env today s l1 loc)
  rw [h2] at hg
  have hre : resolveEnd env today s ad dtl ddl l1 loc =
      .ok ((if ad then s.addDays (ddl - 1) else s.addMinutes dtl),
           (guessdatetimefstr env today s l1 loc).2) := by
    unfold resolveEnd
    rw [← hg]
  refine ⟨hre, ?_⟩
  have hpre : preStages env today date_list loc dtz dtl ddl =
      (match repair today ad s
          (if ad then s.addDays (ddl - 1) else s.addMinutes dtl) with
       | .error e => .error e
       | .ok e1 =>
         finalizeTimes env ad dtz s e1 (guessdatetimefstr env today s l1 loc).2) := by
    unfold preStages
    rw [h1]
    dsimp only
    rw [hre]
  unfold construct_event
  rw [hpre]
  cases repair today ad s (if ad then s.addDays (ddl - 1) else s.addMinutes dtl) with
  | error e => rfl
  | ok e1 =>
    cases finalizeTimes env ad dtz s e1 (guessdatetimefstr env today s l1 loc).2 with
    | error e => rfl
    | ok tl =>
      obtain ⟨times, l3⟩ := tl
      rfl

/-- Witness for claim C2: with one unparseable token left, the end defaults
to start plus 60 minutes and the token stays in the list. -/
theorem construct_event_end_default_witness :
    resolveEnd envC3 today5 ⟨2024, 6, 15, 10, 0⟩ false 60 1 ["x"] locA
      = .ok (⟨2024, 6, 15, 11, 0⟩, ["x"]) :=
  (construct_event_end_default envC3 today5 ["10:00", "x"] locA "UTC" 60 1
    none none none none today5 "U" ⟨2024, 6, 15, 10, 0⟩ false ["x"] rfl rfl).1

/-- Claim C3 counterexample: with an explicit description supplied but no
location, the remainder `a :: b` is still split — the summary becomes `a`
and the supplied description is overwritten by `b` — contradicting the claim
that the split happens only when neither description nor location was
supplied and that a supplied description is preserved. -/
theorem construct_event_split_overwrite_cex :
    construct_event envC3 today5 ["10:00", "a", "::", "b"] locA "UTC" 60 1
      (some "d") none none none today5 "U" = .ok evC3val ∧
    evC3val.description ≠ some "d" ∧ evC3val.summary ≠ joinSp ["a", "::", "b"] :=
  ⟨rfl, by decide, by decide⟩

/-- Claim C3 (amended): the remainder is split on the delimiter at its first
occurrence exactly when the description argument is missing or empty OR the
location argument is missing or empty; only when both are supplied
(non-empty) does the whole remainder become the summary with the supplied
description preserved.  When the split applies and the delimiter is present,
the text after the delimiter replaces any supplied description (and is
dropped from the event when empty). -/
theorem buildEvent_text_split_amended (env : PEnv) (today : DT)
    (times : EvTime × EvTime) (l3 : List String) (loc : Locale)
    (desc locn rep : Option String) (untl : Option (List String)) (now : DT)
    (uid : String) (ev : Event)
    (h : buildEvent env today times l3 loc desc locn rep untl now uid = .ok ev) :
    (pyFalsy desc = false ∧ pyFalsy locn = false →
      ev.summary = joinSp l3 ∧ ev.description = desc) ∧
    ((pyFalsy desc || pyFalsy locn) = true →
      ev.summary = (splitOnce (joinSp l3)).1 ∧
      ev.description = (match (splitOnce (joinSp l3)).2 with
        | some d2 => if pyFalsy (some d2) then none else some d2
        | none => if pyFalsy desc then none else desc)) := by
  constructor
  · rintro ⟨hd, hl⟩
    simp only [buildEvent] at h
    rw [if_neg (by rw [hd, hl]; simp)] at h
    split at h
    · cases h
    · injection h with h
      subst h
      refine ⟨rfl, ?_⟩
      dsimp only
      rw [hd]
      rfl
  · intro hc
    simp only [buildEvent] at h
    rw [if_pos hc] at h
    cases hsp : (splitOnce (joinSp l3)).2 with
    | none =>
      rw [hsp] at h
      dsimp only at h
      split at h
      · cases h
      · injection h with h
        subst h
        exact ⟨rfl, rfl⟩
    | some d2 =>
      rw [hsp] at h
      dsimp only at h
      split at h
      · cases h
      · injection h with h
        subst h
        exact ⟨rfl, rfl⟩

/-- Witness for claim C3: in the overwrite scenario the summary is the text
before the delimiter and the description the text after it. -/
theorem buildEvent_text_split_witness :
    evC3val.summary = "a" ∧ evC3val.description = some "b" :=
  (buildEvent_text_split_amended envC3 today5
    (.loc "UTC" ⟨2024, 6, 15, 10, 0⟩, .loc "UTC" ⟨2024, 6, 15, 11, 0⟩)
    ["a", "::", "b"] locA (some "d") none none none today5 "U" evC3val rfl).2 rfl

/-- Claim C4 counterexample: for the valid all-day pair start 2023-05-01 and
end 2024-02-28, with clock year 2024, the all-day year rewrite attempts to
build February 29 of 2023 and the repair phase raises `ValueError` instead
of completing. -/
theorem repair_allday_feb29_cex :
    repair ⟨2024, 7, 1, 0, 0⟩ true ⟨2023, 5, 1, 0, 0⟩ ⟨2024, 2, 28, 0, 0⟩
      = .error .valueError ∧
    DT.valid ⟨2023, 5, 1, 0, 0⟩ = true ∧ DT.valid ⟨2024, 2, 28, 0, 0⟩ = true :=
  ⟨rfl, by decide, by decide⟩

/-- Claim C4 (amended): for a valid resolved start and an end with in-range
time of day, the repair phase never raises `IndexError` and never invokes
the fatal-reporting capability; the non-all-day repair always completes, and
only the all-day year rewrites can fail, with a `ValueError`. -/
theorem repair_completes_or_allday_valueerror (today : DT) (ad : Bool) (s e : DT)
    (hs : s.valid = true) (he : e.timeOk = true) :
    (match repair today ad s e with
     | .ok _ => True
     | .error .valueError => ad = true
     | .error _ => False) := by
  rcases repair_cases today ad s e hs he with ⟨e2, h2⟩ | ⟨had, herr⟩
  · rw [h2]; trivial
  · rw [herr]; exact had

/-- Witness for claim C4 at a concrete non-all-day repair. -/
theorem repair_c4_witness :
    (match repair ⟨2024, 6, 15, 12, 0⟩ false ⟨2024, 6, 1, 9, 0⟩ ⟨2024, 6, 1, 8, 0⟩ with
     | .ok _ => True
     | .error .valueError => false = true
     | .error _ => False) :=
  repair_completes_or_allday_valueerror ⟨2024, 6, 15, 12, 0⟩ false
    ⟨2024, 6, 1, 9, 0⟩ ⟨2024, 6, 1, 8, 0⟩ (by decide) (by decide)

/-- Claim C5: for a non-all-day event whose resolved end is strictly before
the resolved start, the repair first replaces the end by the calendar date
of the start combined with the original hour and minute of the end, then
adds one day if the result is still before the start; in particular the
tokens 2024-06-01, 09:00, 08:00, standup yield start 2024-06-01 09:00 and
repaired end 2024-06-02 08:00. -/
theorem repair_two_step_nonallday :
    (∀ (today s e : DT), s.valid = true → e.timeOk = true → dtLt e s = true →
      repair today false s e =
        .ok (if dtLt ⟨s.y, s.m, s.d, e.h, e.mi⟩ s
             then (DT.mk s.y s.m s.d e.h e.mi).addDays 1
             else ⟨s.y, s.m, s.d, e.h, e.mi⟩)) ∧
    construct_event envC5 today5 ["2024-06-01", "09:00", "08:00", "standup"] locA
      "UTC" 60 1 none none none none ⟨2024, 6, 15, 12, 30⟩ "U" = .ok evC5val := by
  constructor
  · intro today s e hs he hlt
    have h0 : repair today false s e = repairShared s e := rfl
    rw [h0]
    have hval : (DT.mk s.y s.m s.d e.h e.mi).valid = true := by
      simp only [DT.valid, DT.dateOk, DT.timeOk, Bool.and_eq_true,
        decide_eq_true_eq] at hs he ⊢
      exact ⟨hs.1, he⟩
    simp only [repairShared]
    rw [if_pos hlt, mkDT_ok_of _ _ _ _ _ hval]
  · rfl

/-- Witness for claim C5 at the concrete before-start end. -/
theorem repair_two_step_witness :
    repair today5 false ⟨2024, 6, 1, 9, 0⟩ ⟨2024, 6, 1, 8, 0⟩
      = .ok ⟨2024, 6, 2, 8, 0⟩ := by
  exact repair_two_step_nonallday.1 today5 ⟨2024, 6, 1, 9, 0⟩ ⟨2024, 6, 1, 8, 0⟩
    (by decide) (by decide) (by decide)

end Khal

namespace Khal

/-- Claim C6 counterexample: when the short date format carries a year, the
token 2024-02-29 parses, is consumed, and only then fails the year rewrite
(February 29 does not exist in the reference year 2023); the resolver then
reports `ValueError` with the token list changed from one token to none,
contradicting the claim that a failing call leaves the list unchanged. -/
theorem guess_consume_mutation_cex :
    guessdatetimefstr envC6 today5 ⟨2023, 5, 1, 0, 0⟩ ["2024-02-29"] locB
      = (.error .valueError, []) ∧ ([] : List String) ≠ ["2024-02-29"] :=
  ⟨rfl, by decide⟩

/-- Claim C6 (amended): provided the two short formats parse with the
placeholder year 1900 (as the CPython strptime does for yearless formats, so
the year rewrite cannot produce an invalid date), a successful fallback-
resolver call removes exactly the first k tokens — with k the separator
count of the matched format plus one for the full grammars and k = 1 for
the time-only grammar — and a call failing with `ValueError` leaves the
token list unchanged. -/
theorem guess_token_consumption_amended (env : PEnv) (loc : Locale)
    (today dd : DT) (l : List String)
    (hY : ∀ x u, (env.dt_strptime x loc.datetimeformat = some u ∨
                  env.dt_strptime x loc.dateformat = some u) →
          u.y = 1900 ∧ u.valid = true)
    (hT : ∀ x hh mm, env.t_strptime x loc.timeformat = some (hh, mm) →
          hh < 24 ∧ mm < 60)
    (hD : dd.dateOk = true) :
    (∀ t ad lr, guessdatetimefstr env today dd l loc = (.ok (t, ad), lr) →
      ∃ k, lr = l.drop k ∧ k ≤ l.length ∧
        (if ad then k = fmtTokens loc.dateformat ∨ k = fmtTokens loc.longdateformat
         else k = fmtTokens loc.datetimeformat ∨ k = fmtTokens loc.longdatetimeformat
              ∨ k = 1)) ∧
    (∀ lr, guessdatetimefstr env today dd l loc = (.error .valueError, lr) →
      lr = l) := by
  have hg : GoodGuess (guessdatetimefstr env today dd l loc) l
      (fun ad k =>
        if ad then k = fmtTokens loc.dateformat ∨ k = fmtTokens loc.longdateformat
        else k = fmtTokens loc.datetimeformat ∨ k = fmtTokens loc.longdatetimeformat
             ∨ k = 1) := by
    unfold guessdatetimefstr
    refine tryNext_good _ _ _ _ (fmtTokens loc.datetimeformat) _
      (fun t lr h => datefstr_year_ok env dd l loc.datetimeformat t lr
        (fun x u hx => hY x u (Or.inl hx)) hD h)
      (fun lr h => datefstr_year_vErr env dd l loc.datetimeformat lr
        (fun x u hx => hY x u (Or.inl hx)) hD h)
      (Or.inl rfl) ?_
    refine tryNext_good _ _ _ _ (fmtTokens loc.longdatetimeformat) _
      (fun t lr h => ((datetimefstr_ok env l loc.longdatetimeformat t lr h).2))
      (fun lr h => datetimefstr_vErr env l loc.longdatetimeformat lr h)
      (Or.inr (Or.inl rfl)) ?_
    refine tryNext_good _ _ _ _ 1 _
      (fun t lr h => timefstr_day_ok env today dd l loc.timeformat t lr hT hD h)
      (fun lr h => timefstr_day_vErr env today dd l loc.timeformat lr hT hD h)
      (Or.inr (Or.inr rfl)) ?_
    refine tryNext_good _ _ _ _ (fmtTokens loc.dateformat) _
      (fun t lr h => datefstr_year_ok env dd l loc.dateformat t lr
        (fun x u hx => hY x u (Or.inr hx)) hD h)
      (fun lr h => datefstr_year_vErr env dd l loc.dateformat lr
        (fun x u hx => hY x u (Or.inr hx)) hD h)
      (Or.inl rfl) ?_
    refine tryNext_good _ _ _ _ (fmtTokens loc.longdateformat) _
      (fun t lr h => ((datetimefstr_ok env l loc.longdateformat t lr h).2))
      (fun lr h => datetimefstr_vErr env l loc.longdateformat lr h)
      (Or.inr rfl) ?_
    constructor
    · intro t ad2 lr h
      rw [Prod.mk.injEq] at h
      cases h.1
    · intro lr h
      rw [Prod.mk.injEq] at h
      exact h.2.symm
  exact ⟨hg.1, hg.2⟩

/-- Witness for claim C6: the yearless short date grammar matches the first
of two tokens and exactly one token is consumed. -/
theorem guess_token_consumption_witness :
    ∃ k, (["x"] : List String) = List.drop k ["01.06.", "x"]
      ∧ k ≤ (["01.06.", "x"] : List String).length
      ∧ (if (true : Bool)
         then k = fmtTokens locA.dateformat ∨ k = fmtTokens locA.longdateformat
         else k = fmtTokens locA.datetimeformat ∨ k = fmtTokens locA.longdatetimeformat
              ∨ k = 1) :=
  (guess_token_consumption_amended envW locA today5 ⟨2024, 7, 15, 0, 0⟩
    ["01.06.", "x"]
    (by
      intro x u h
      rcases h with h | h
      · exfalso
        dsimp only [envW, locA] at h
        rw [if_neg (by rintro ⟨hf, -⟩; exact absurd hf (by decide))] at h
        cases h
      · dsimp only [envW, locA] at h
        split at h
        · injection h with h
          subst h
          exact ⟨rfl, by decide⟩
        · cases h)
    (by
      intro x hh mm h
      dsimp only [envW, locA] at h
      cases h)
    (by decide)).1 ⟨2024, 6, 1, 0, 0⟩ true ["x"] rfl

/-- Claim C7: for a non-all-day event with a token remaining, a token naming
a known timezone localizes both start and end to that timezone and is
consumed; a token the lookup does not know localizes both to the default
timezone and stays at the head of the remaining tokens, so the free text
joined for the summary begins with it. -/
theorem finalize_timezone_resolution (env : PEnv) (dtz : Tz) (s e : DT)
    (tok : String) (rest : List String) :
    (∀ tz, env.tz_lookup tok = some tz →
      finalizeTimes env false dtz s e (tok :: rest)
        = .ok ((.loc tz s, .loc tz e), rest)) ∧
    (env.tz_lookup tok = none →
      finalizeTimes env false dtz s e (tok :: rest)
          = .ok ((.loc dtz s, .loc dtz e), tok :: rest) ∧
      ∃ t, joinSp (tok :: rest) = tok ++ t) := by
  constructor
  · intro tz htz
    unfold finalizeTimes
    rw [if_neg Bool.false_ne_true]
    dsimp only
    rw [htz]
  · intro htz
    refine ⟨?_, ?_⟩
    · unfold finalizeTimes
      rw [if_neg Bool.false_ne_true]
      dsimp only
      rw [htz]
    · cases rest with
      | nil => exact ⟨"", (String.append_empty tok).symm⟩
      | cons r rs =>
        exact ⟨" " ++ joinSp (r :: rs), (String.append_assoc tok " " (joinSp (r :: rs)))⟩

/-- Witness for claim C7: an unknown trailing token is left unconsumed with
both instants on the default timezone, and a known timezone name is consumed
with both instants localized to it. -/
theorem finalize_timezone_resolution_witness :
    (finalizeTimes envC5 false "UTC" ⟨2024, 6, 1, 9, 0⟩ ⟨2024, 6, 2, 8, 0⟩ ["standup"]
        = .ok ((.loc "UTC" ⟨2024, 6, 1, 9, 0⟩, .loc "UTC" ⟨2024, 6, 2, 8, 0⟩),
               ["standup"])
      ∧ ∃ t, joinSp ["standup"] = "standup" ++ t) ∧
    finalizeTimes envTz false "UTC" ⟨2024, 6, 1, 9, 0⟩ ⟨2024, 6, 2, 8, 0⟩
        ["Europe/Berlin", "talk"]
      = .ok ((.loc "Europe/Berlin" ⟨2024, 6, 1, 9, 0⟩,
              .loc "Europe/Berlin" ⟨2024, 6, 2, 8, 0⟩), ["talk"]) :=
  ⟨(finalize_timezone_resolution envC5 "UTC" ⟨2024, 6, 1, 9, 0⟩ ⟨2024, 6, 2, 8, 0⟩
      "standup" []).2 rfl,
   (finalize_timezone_resolution envTz "UTC" ⟨2024, 6, 1, 9, 0⟩ ⟨2024, 6, 2, 8, 0⟩
      "Europe/Berlin" ["talk"]).1 "Europe/Berlin" rfl⟩

/-- Claim C8 counterexample: the repeat argument supplied as the empty
string is neither the none sentinel nor one of the four frequencies, yet the
truthiness test skips validation entirely: an event is returned, no fatal
error is raised, and no recurrence is attached. -/
theorem construct_event_empty_repeat_cex :
    construct_event envC3 today5 ["10:00", "x"] locA "UTC" 60 1 none none
      (some "") none today5 "U" = .ok evC8val ∧ evC8val.rrule = none :=
  ⟨rfl, rfl⟩

/-- Claim C8 (amended): when assembly reaches the recurrence check (the
earlier stages succeeded) and the repeat argument is supplied, non-empty,
not the none sentinel and not one of daily, weekly, monthly, yearly, the
fatal-reporting capability is invoked and `construct_event` aborts with
`FatalError`; no event is returned. -/
theorem construct_event_invalid_repeat_fatal (env : PEnv) (today : DT)
    (date_list : List String) (loc : Locale) (dtz : Tz) (dtl ddl : Nat)
    (desc locn : Option String) (untl : Option (List String)) (now : DT)
    (uid : String) (r : String) (times : EvTime × EvTime) (l3 : List String)
    (hpre : preStages env today date_list loc dtz dtl ddl = .ok (times, l3))
    (h0 : r ≠ "") (h1 : r ≠ "none") (h2 : r ≠ "daily") (h3 : r ≠ "weekly")
    (h4 : r ≠ "monthly") (h5 : r ≠ "yearly") :
    construct_event env today date_list loc dtz dtl ddl desc locn (some r) untl
      now uid = .error (.fatalError repeatMsg) := by
  unfold construct_event
  rw [hpre]
  dsimp only
  simp only [buildEvent]
  have hneg1 : ¬(r = "" ∨ r = "none") := by
    rintro (hh | hh)
    exacts [h0 hh, h1 hh]
  have hneg2 : ¬(r = "daily" ∨ r = "weekly" ∨ r = "monthly" ∨ r = "yearly") := by
    rintro (hh | hh | hh | hh)
    exacts [h2 hh, h3 hh, h4 hh, h5 hh]
  rw [if_neg hneg1, if_neg hneg2]

/-- Witness for claim C8: repeat fortnightly aborts with the fatal message
after the earlier stages succeeded. -/
theorem construct_event_invalid_repeat_witness :
    construct_event envC3 today5 ["10:00", "x"] locA "UTC" 60 1 none none
      (some "fortnightly") none today5 "U" = .error (.fatalError repeatMsg) :=
  construct_event_invalid_repeat_fatal envC3 today5 ["10:00", "x"] locA "UTC" 60 1
    none none none today5 "U" "fortnightly"
    (.loc "UTC" ⟨2024, 6, 15, 10, 0⟩, .loc "UTC" ⟨2024, 6, 15, 11, 0⟩) ["x"]
    rfl (by decide) (by decide) (by decide) (by decide) (by decide) (by decide)

/-- Claim C9: for a non-all-day invocation whose start and end resolution
together consume all tokens, the timezone step indexes the now-empty token
list and `construct_event` raises `IndexError`: no event is built and the
fatal-reporting capability is not involved. -/
theorem construct_event_all_consumed_index_error (env : PEnv) (today : DT)
    (date_list : List String) (loc : Locale) (dtz : Tz) (dtl ddl : Nat)
    (desc locn rep : Option String) (untl : Option (List String)) (now : DT)
    (uid : String) (s e0 : DT) (l1 : List String)
    (h1 : resolveStart env today date_list loc = .ok (s, false, l1))
    (h2 : resolveEnd env today s false dtl ddl l1 loc = .ok (e0, []))
    (hs : s.valid = true) (he : e0.timeOk = true) :
    construct_event env today date_list loc dtz dtl ddl desc locn rep untl now uid
      = .error .indexError := by
  obtain ⟨e2, hrp⟩ := repair_nonallday_ok today s e0 hs he
  unfold construct_event preStages
  rw [h1]
  dsimp only
  rw [h2]
  dsimp only
  rw [hrp]
  rfl

/-- Witness for claim C9 at the two-token input 09:00 10:00. -/
theorem construct_event_all_consumed_witness :
    construct_event envC9 today5 ["09:00", "10:00"] locA "UTC" 60 1 none none
      none none today5 "U" = .error .indexError :=
  construct_event_all_consumed_index_error envC9 today5 ["09:00", "10:00"] locA
    "UTC" 60 1 none none none none today5 "U" ⟨2024, 6, 15, 9, 0⟩
    ⟨2024, 6, 15, 10, 0⟩ ["10:00"] rfl rfl (by decide) (by decide)

/-- Claim C10: a datetime passed as dtstart to `new_event` takes the
isinstance-date branch (datetime is a subclass of date), so the event start
combines the calendar date of the value with the next-full-hour time of day
derived from the clock; the hour and minute supplied by the caller are never
used. -/
theorem new_event_datetime_date_branch (clock : DT) (y m d hh mm hh2 mm2 : Nat)
    (dtend : Option PyDateVal) (summ : Option String) (tz : Option Tz)
    (stamp : DT) (uid : String) :
    (new_event clock (some (.pdt ⟨y, m, d, hh, mm⟩)) dtend summ tz stamp uid).dtstart
      = ⟨y, m, d, ((⟨clock.y, clock.m, clock.d, clock.h, 0⟩ : DT).addMinutes 60).h,
                  ((⟨clock.y, clock.m, clock.d, clock.h, 0⟩ : DT).addMinutes 60).mi⟩ ∧
    new_event clock (some (.pdt ⟨y, m, d, hh, mm⟩)) dtend summ tz stamp uid
      = new_event clock (some (.pdt ⟨y, m, d, hh2, mm2⟩)) dtend summ tz stamp uid := by
  exact ⟨rfl, rfl⟩

end Khal
